import Mathlib

/-!
Shallow embedding of the TileDB range-subset / range-manager subsystem
(`tiledb/sm/subarray/range_subset.{h,cc}`, `tiledb/sm/subarray/range_manager.{h,cc}`)
and of the sorted-URI computation declared in
`tiledb/sm/storage_manager/storage_manager.h`.

Machine integers are modelled as `Int` together with the explicit
`numeric_limits<T>::max()` bound of the physical type `T`; the coalescing
strategy's ` + 1` is exact because it is guarded by `end != max` in the source
(integral promotion for narrow types, and the guard rules out wrap/overflow for
the 64-bit types).  Variable-length string payloads are modelled as `String`,
and the decoded float payloads as `ℚ` (no arithmetic is ever performed on them
by the code paths modelled here: `add` never reads them, and the float sort
comparator's `<` is modelled by the rational order).
-/

/-- Result type standing for `tiledb::common::Status`: `ok` is `Status::Ok()`,
`error` is an error status carrying its message (the source builds the message
with `datatype_str(D)`; no theorem below depends on the message text). -/
inductive Status where
  | ok : Status
  | error : String → Status
deriving DecidableEq, Repr

/-- Physical element type `T` selected by the datatype dispatch switches in
`range_subset.cc` / `range_manager.cc`. -/
inductive PhysT where
  | i8 | u8 | i16 | u16 | i32 | u32 | i64 | u64
  | f32 | f64
  | char
  | str
deriving DecidableEq, Repr

/-- Mirrors `std::is_integral<T>::value` for the physical types (note that
`char` is integral in C++, while the floats and `std::string` are not). -/
def PhysT.is_integral : PhysT → Bool
  | .i8 | .u8 | .i16 | .u16 | .i32 | .u32 | .i64 | .u64 | .char => true
  | .f32 | .f64 | .str => false

/-- Mirrors `std::is_arithmetic<T>::value` (integral or floating point;
`char` is arithmetic). -/
def PhysT.is_arithmetic : PhysT → Bool
  | .str => false
  | _ => true

/-- The `Datatype` enum constructors handled by the dispatch switches
(`range_subset.cc` lines 52-176, `range_manager.cc`); the `default:` branch of
those switches is `LOG_FATAL` and unreachable for these constructors. -/
inductive Datatype where
  | INT8 | UINT8 | INT16 | UINT16 | INT32 | UINT32 | INT64 | UINT64
  | FLOAT32 | FLOAT64
  | DATETIME_YEAR | DATETIME_MONTH | DATETIME_WEEK | DATETIME_DAY
  | DATETIME_HR | DATETIME_MIN | DATETIME_SEC | DATETIME_MS | DATETIME_US
  | DATETIME_NS | DATETIME_PS | DATETIME_FS | DATETIME_AS
  | TIME_HR | TIME_MIN | TIME_SEC | TIME_MS | TIME_US
  | TIME_NS | TIME_PS | TIME_FS | TIME_AS
  | CHAR
  | STRING_ASCII | STRING_UTF8 | STRING_UTF16 | STRING_UTF32
  | STRING_UCS2 | STRING_UCS4
  | ANY
deriving DecidableEq, Repr

/-- The physical type `T` chosen for each datatype by `range_subset_internals`
(`range_subset.cc` lines 52-176): the date/time types alias `int64_t`, `ANY`
aliases `uint8_t`, `CHAR` is `char`, and every string encoding is
`std::string`. -/
def Datatype.physType : Datatype → PhysT
  | .INT8 => .i8
  | .UINT8 => .u8
  | .INT16 => .i16
  | .UINT16 => .u16
  | .INT32 => .i32
  | .UINT32 => .u32
  | .INT64 => .i64
  | .UINT64 => .u64
  | .FLOAT32 => .f32
  | .FLOAT64 => .f64
  | .DATETIME_YEAR | .DATETIME_MONTH | .DATETIME_WEEK | .DATETIME_DAY
  | .DATETIME_HR | .DATETIME_MIN | .DATETIME_SEC | .DATETIME_MS
  | .DATETIME_US | .DATETIME_NS | .DATETIME_PS | .DATETIME_FS
  | .DATETIME_AS => .i64
  | .TIME_HR | .TIME_MIN | .TIME_SEC | .TIME_MS | .TIME_US
  | .TIME_NS | .TIME_PS | .TIME_FS | .TIME_AS => .i64
  | .CHAR => .char
  | .STRING_ASCII | .STRING_UTF8 | .STRING_UTF16 | .STRING_UTF32
  | .STRING_UCS2 | .STRING_UCS4 => .str
  | .ANY => .u8

/-- Value of `std::numeric_limits<T>::max()` for the integral physical types
(`char` assumed signed, as on the mainstream platforms TileDB targets); the
value is never read for the float and string types, for which we return 0. -/
def PhysT.intMax : PhysT → Int
  | .i8 => 2 ^ 7 - 1
  | .u8 => 2 ^ 8 - 1
  | .i16 => 2 ^ 15 - 1
  | .u16 => 2 ^ 16 - 1
  | .i32 => 2 ^ 31 - 1
  | .u32 => 2 ^ 32 - 1
  | .i64 => 2 ^ 63 - 1
  | .u64 => 2 ^ 64 - 1
  | .char => 2 ^ 7 - 1
  | .f32 | .f64 | .str => 0

/-- Maximum of the physical type selected for a datatype. -/
def Datatype.intMax (d : Datatype) : Int :=
  d.physType.intMax

/-- A typed view of `tiledb::sm::Range`: the decoded `start()` and `end()`
payloads (for strings, `start_str()` / `end_str()`). -/
structure Range (α : Type) where
  start : α
  end_ : α
deriving DecidableEq, Repr

/-- Mirrors `Range::set_end`. -/
def Range.set_end (r : Range α) (e : α) : Range α :=
  { r with end_ := e }

/-- Primary template `detail::AddStrategy<Coalesce, T>::add_range`
(`range_subset.h` lines 53-59): unconditional `emplace_back`. -/
def basic_add_range (ranges : List (Range α)) (new_range : Range α) :
    List (Range α) :=
  ranges ++ [new_range]

/-- The `contiguous_after` condition of the integral coalescing strategies
(`range_subset.h` lines 76-80, `range_manager.h` lines 77-81):
`last.end() != numeric_limits<T>::max() && last.end() + 1 == new.start()`. -/
def contiguous_after (maxT : Int) (last_range new_range : Range Int) : Prop :=
  last_range.end_ ≠ maxT ∧ last_range.end_ + 1 = new_range.start

instance : ∀ maxT l n, Decidable (contiguous_after maxT l n) := fun _ _ _ =>
  instDecidableAnd

/-- Specialization `detail::AddStrategy<true, T>::add_range` for integral `T`
(`range_subset.h` lines 62-90).  The same body, minus the emptiness check
(replaced there by `assert(!ranges.empty())`), is
`detail::CoalescingAddStrategy<T>::add_range` for integral `T`
(`range_manager.h` lines 66-90); the manager only invokes it on a non-empty
vector, so the shared definition is faithful to both. -/
def coalescing_add_range (maxT : Int) (ranges : List (Range Int))
    (new_range : Range Int) : List (Range Int) :=
  match ranges.getLast? with
  | none => ranges ++ [new_range]
  | some last_range =>
    if contiguous_after maxT last_range new_range then
      ranges.dropLast ++ [last_range.set_end new_range.end_]
    else
      ranges ++ [new_range]

/-- Which `AddStrategy<Coalesce, T>` specialization resolves: the coalescing
one exactly when `Coalesce` holds and `std::is_integral<T>` (the
`enable_if` on `range_subset.h` line 66); otherwise the primary template. -/
def addStrategyCoalesces (coalesce : Bool) (t : PhysT) : Bool :=
  coalesce && t.is_integral

/-- `detail::AddStrategy<Coalesce, T>::add_range` for a physical type `t`
whose decoded payload is an integer, after template resolution: the
coalescing specialization when it applies, the appending primary template
otherwise.  Both bodies `return Status::Ok()`. -/
def AddStrategy.add_range_int (coalesce : Bool) (t : PhysT) (maxT : Int)
    (ranges : List (Range Int)) (new_range : Range Int) :
    Status × List (Range Int) :=
  if addStrategyCoalesces coalesce t then
    (Status.ok, coalescing_add_range maxT ranges new_range)
  else
    (Status.ok, basic_add_range ranges new_range)

/-- Which `SortStrategy<D, T>` specialization resolves for the `(T, D)` pair
selected by the dispatch (`range_subset.h` lines 97-146): the full
specialization for `char` is an error body; the arithmetic partial
specialization sorts; among the `std::string` datatypes only
`STRING_ASCII` has a (sorting) full specialization, all others fall to the
error primary template. -/
def sortEnabled (d : Datatype) : Bool :=
  match d.physType with
  | .char => false
  | .str =>
    match d with
    | .STRING_ASCII => true
    | _ => false
  | _ => true

/-- Comparator of the arithmetic `SortStrategy` (`range_subset.h` lines
115-120): lexicographic on the decoded `(start, end)` pair
(`a_data[0]` is `start()`, `a_data[1]` is `end()`). -/
def range_lt_int (a b : Range Int) : Prop :=
  a.start < b.start ∨ (a.start = b.start ∧ a.end_ < b.end_)

instance (a b : Range Int) : Decidable (range_lt_int a b) := by
  unfold range_lt_int; infer_instance

/-- Comparator of `SortStrategy<STRING_ASCII, std::string>` (`range_subset.h`
lines 140-143): lexicographic byte comparison on `(start_str, end_str)`. -/
def range_lt_str (a b : Range String) : Prop :=
  a.start < b.start ∨ (a.start = b.start ∧ a.end_ < b.end_)

instance (a b : Range String) : Decidable (range_lt_str a b) := by
  unfold range_lt_str; infer_instance

/-- Comparator of the arithmetic `SortStrategy` instantiated at a float type
(decoded values modelled as rationals). -/
def range_lt_float (a b : Range ℚ) : Prop :=
  a.start < b.start ∨ (a.start = b.start ∧ a.end_ < b.end_)

instance (a b : Range ℚ) : Decidable (range_lt_float a b) := by
  unfold range_lt_float; infer_instance

/-- Modelled from the spec: `parallel_sort` (declared in
`tiledb/sm/misc/parallel_functions.h`, which is not part of the source
subset) sorts the given vector with the given strict comparator; per §5 of
the spec the operation "submits sort work to the compute pool and blocks
until complete", i.e. it is an ordinary comparison sort.  Modelled as an
insertion sort ordered by the comparator's induced non-strict order
`fun a b => ¬ lt b a`, the sorted-output contract of a C++ comparison
sort. -/
def parallel_sort (lt : α → α → Prop) [DecidableRel lt] (l : List α) :
    List α :=
  letI : DecidableRel (fun a b => ¬ lt b a) := fun _ _ => instDecidableNot
  List.insertionSort (fun a b => ¬ lt b a) l

/-- Data captured by `detail::RangeSubsetInternalsImpl<T, D, CoalesceAdds>`:
the template arguments fixed at construction by `range_subset_internals`
(`range_subset.cc` lines 42-177). -/
structure RangeSubsetInternals where
  datatype : Datatype
  coalesce : Bool
deriving DecidableEq, Repr

/-- `tiledb::sm::RangeSubset` (`range_subset.h` lines 197-304), with the
decoded payload type `α` of its ranges made explicit.  `impl_` is the
nullable `tdb_shared_ptr<detail::RangeSubsetInternals>`, `nullptr` (`none`)
after the default constructor. -/
structure RangeSubsetT (α : Type) where
  impl_ : Option RangeSubsetInternals
  full_range_ : Range α
  is_default_ : Bool
  ranges_ : List (Range α)
deriving DecidableEq, Repr

/-- The default constructor `RangeSubset()` (`range_subset.h` line 219):
`impl_` stays `nullptr`, `is_default_` stays `true`, `ranges_` stays empty.
The C++ member initializer `full_range_ = Range()` is an empty payload; the
placeholder value passed here is never read by any modelled operation. -/
def RangeSubsetT.default_ctor (empty_range : Range α) : RangeSubsetT α :=
  { impl_ := none
    full_range_ := empty_range
    is_default_ := true
    ranges_ := [] }

/-- The general constructor (`range_subset.cc` lines 179-189): installs the
internals selected from `(datatype, coalesce_ranges)` (never null, since the
dispatch switch covers every `Datatype` constructor and its `default:`
branch is `LOG_FATAL`), and seeds `ranges_` with the full range iff
`is_default`. -/
def RangeSubsetT.general (datatype : Datatype) (full_range : Range α)
    (is_default coalesce_ranges : Bool) : RangeSubsetT α :=
  { impl_ := some ⟨datatype, coalesce_ranges⟩
    full_range_ := full_range
    is_default_ := is_default
    ranges_ := if is_default then [full_range] else [] }

/-- `RangeSubset::is_default` (`range_subset.h` lines 261-263). -/
def RangeSubsetT.is_default (s : RangeSubsetT α) : Bool :=
  s.is_default_

/-- `RangeSubset::is_empty` (`range_subset.h` lines 266-268). -/
def RangeSubsetT.is_empty (s : RangeSubsetT α) : Bool :=
  s.ranges_.isEmpty

/-- `RangeSubset::is_set` (`range_subset.h` lines 278-280). -/
def RangeSubsetT.is_set (s : RangeSubsetT α) : Bool :=
  !s.is_default_ && !s.ranges_.isEmpty

/-- `RangeSubset::num_ranges` (`range_subset.h` lines 292-294). -/
def RangeSubsetT.num_ranges (s : RangeSubsetT α) : Nat :=
  s.ranges_.length

/-- `RangeSubset::get_range` (`range_subset.h` lines 247-249); out-of-bounds
indexing of the underlying vector is undefined, modelled as `none`. -/
def RangeSubsetT.get_range (s : RangeSubsetT α) (range_index : Nat) :
    Option (Range α) :=
  s.ranges_[range_index]?

/-- `RangeSubset::add_range_unsafe` (`range_subset.h` lines 239-245) for a
subset over an integer-decoded payload: clear the implicit default range
first, then delegate to the `AddStrategy` of the internals.  A `none` result
models the null-pointer dereference of `impl_` on a default-constructed
subset. -/
def RangeSubsetT.add_range_unsafe_int (s : RangeSubsetT Int)
    (range : Range Int) : Option (Status × RangeSubsetT Int) :=
  match s.impl_ with
  | none => none
  | some impl =>
    let s := if s.is_default_ then
        { s with ranges_ := [], is_default_ := false } else s
    let r := AddStrategy.add_range_int impl.coalesce impl.datatype.physType
        impl.datatype.intMax s.ranges_ range
    some (r.1, { s with ranges_ := r.2 })

/-- `detail::AddStrategy<Coalesce, T>::add_range` for a physical type `t`
whose payload is not decoded as an integer (floats, `std::string`): the
integral specialization can only resolve when `is_integral<T>`, so for these
types the appending primary template applies; the first branch is
unreachable and leaves the vector unchanged. -/
def AddStrategy.add_range_noint (coalesce : Bool) (t : PhysT)
    (ranges : List (Range α)) (new_range : Range α) :
    Status × List (Range α) :=
  if addStrategyCoalesces coalesce t then
    (Status.ok, ranges)
  else
    (Status.ok, basic_add_range ranges new_range)

/-- `RangeSubset::add_range_unsafe` for a subset over a float- or
string-decoded payload. -/
def RangeSubsetT.add_range_unsafe_noint (s : RangeSubsetT α)
    (range : Range α) : Option (Status × RangeSubsetT α) :=
  match s.impl_ with
  | none => none
  | some impl =>
    let s := if s.is_default_ then
        { s with ranges_ := [], is_default_ := false } else s
    let r := AddStrategy.add_range_noint impl.coalesce impl.datatype.physType
        s.ranges_ range
    some (r.1, { s with ranges_ := r.2 })

/-- `RangeSubset::sort_ranges` (`range_subset.h` lines 301-303) for the
integer world: the resolved `SortStrategy` either sorts with the arithmetic
comparator or returns an error status without touching the vector. -/
def RangeSubsetT.sort_ranges_int (s : RangeSubsetT Int) :
    Option (Status × RangeSubsetT Int) :=
  match s.impl_ with
  | none => none
  | some impl =>
    if sortEnabled impl.datatype then
      some (Status.ok, { s with ranges_ := parallel_sort range_lt_int s.ranges_ })
    else
      some (Status.error "Invalid datatype for sorting.", s)

/-- `RangeSubset::sort_ranges` for the string world. -/
def RangeSubsetT.sort_ranges_str (s : RangeSubsetT String) :
    Option (Status × RangeSubsetT String) :=
  match s.impl_ with
  | none => none
  | some impl =>
    if sortEnabled impl.datatype then
      some (Status.ok, { s with ranges_ := parallel_sort range_lt_str s.ranges_ })
    else
      some (Status.error "Invalid datatype for sorting.", s)

/-- `RangeSubset::sort_ranges` for the float world. -/
def RangeSubsetT.sort_ranges_float (s : RangeSubsetT ℚ) :
    Option (Status × RangeSubsetT ℚ) :=
  match s.impl_ with
  | none => none
  | some impl =>
    if sortEnabled impl.datatype then
      some (Status.ok, { s with ranges_ := parallel_sort range_lt_float s.ranges_ })
    else
      some (Status.error "Invalid datatype for sorting.", s)

/-- The add strategies of `range_manager.h` (`detail::AddRangeStrategy`
subclasses) as installed at construction: `BasicAddStrategy`, the integral
`CoalescingAddStrategy<T>` (carrying `numeric_limits<T>::max()`), or the
float / `std::string` `CoalescingAddStrategy` specializations whose bodies
are a plain `emplace_back` (`range_manager.h` lines 92-108). -/
inductive AddStrategyK where
  | basic
  | coalescingInt (maxT : Int)
  | coalescingAppend
deriving DecidableEq, Repr

/-- `strategy->add_range(ranges_, range)` for a manager over an
integer-decoded payload.  `BasicAddStrategy::add_range` is declared at
`range_manager.h` line 57; its body is not part of the source subset and is
modelled from the spec (§4.2: "Basic: `append(range)` unconditionally"). -/
def AddStrategyK.add_range (k : AddStrategyK) (ranges : List (Range Int))
    (new_range : Range Int) : List (Range Int) :=
  match k with
  | .basic => ranges ++ [new_range]
  | .coalescingInt maxT => coalescing_add_range maxT ranges new_range
  | .coalescingAppend => ranges ++ [new_range]

/-- `strategy->add_range(ranges_, range)` for a manager over a float- or
string-decoded payload; the `coalescingInt` branch is unreachable for these
types (the integral `CoalescingAddStrategy<T>` requires `is_integral<T>`)
and leaves the vector unchanged. -/
def AddStrategyK.add_range_noint (k : AddStrategyK) (ranges : List (Range α))
    (new_range : Range α) : List (Range α) :=
  match k with
  | .basic => ranges ++ [new_range]
  | .coalescingInt _ => ranges
  | .coalescingAppend => ranges ++ [new_range]

/-- `tiledb::sm::DimensionRangeManager<T>` (`range_manager.h` lines
161-268), with the decoded payload type made explicit.  `add_strategy_` is
the nullable `tdb_shared_ptr<detail::AddRangeStrategy>`. -/
structure DimensionRangeManagerT (α : Type) where
  bounds_ : Range α
  is_default_ : Bool
  add_strategy_ : Option AddStrategyK
  ranges_ : List (Range α)
deriving DecidableEq, Repr

/-- The default-range constructor `DimensionRangeManager(const Range&)`
(`range_manager.h` lines 176-181): `is_default_` is `true`, no strategy is
installed, and the bounds are pushed as the single stored range. -/
def DimensionRangeManagerT.mk_default (bounds : Range α) :
    DimensionRangeManagerT α :=
  { bounds_ := bounds
    is_default_ := true
    add_strategy_ := none
    ranges_ := [bounds] }

/-- The general constructor
`DimensionRangeManager(const Range&, bool allow_adding, bool coalesce_ranges)`
(`range_manager.h` lines 189-201), for integral `T` with maximum `maxT`:
`is_default_` is `false`, `ranges_` is empty, and a strategy is installed
only when `allow_adding`. -/
def DimensionRangeManagerT.mk_general_int (bounds : Range Int)
    (allow_adding coalesce_ranges : Bool) (maxT : Int) :
    DimensionRangeManagerT Int :=
  { bounds_ := bounds
    is_default_ := false
    add_strategy_ :=
      if allow_adding then
        if coalesce_ranges then some (.coalescingInt maxT) else some .basic
      else none
    ranges_ := [] }

/-- The general constructor for float / string `T`: as above, but the
coalescing strategy selected is the appending specialization. -/
def DimensionRangeManagerT.mk_general_noint (bounds : Range α)
    (allow_adding coalesce_ranges : Bool) : DimensionRangeManagerT α :=
  { bounds_ := bounds
    is_default_ := false
    add_strategy_ :=
      if allow_adding then
        if coalesce_ranges then some .coalescingAppend else some .basic
      else none
    ranges_ := [] }

/-- `DimensionRangeManager::add_range_unsafe` (`range_manager.h` lines
215-230) for an integer-decoded payload: push when the vector is empty; push
when no strategy is installed (the source TODO notes this "can lead to more
than one range per dimension ... (which is an unexpected state)"); otherwise
delegate to the strategy.  Every path returns `Status::Ok()`. -/
def DimensionRangeManagerT.add_range_unsafe_int
    (m : DimensionRangeManagerT Int) (range : Range Int) :
    Status × DimensionRangeManagerT Int :=
  if m.ranges_.isEmpty then
    (Status.ok, { m with ranges_ := m.ranges_ ++ [range] })
  else
    match m.add_strategy_ with
    | none => (Status.ok, { m with ranges_ := m.ranges_ ++ [range] })
    | some k => (Status.ok, { m with ranges_ := k.add_range m.ranges_ range })

/-- `DimensionRangeManager::add_range_unsafe` for a float- or string-decoded
payload. -/
def DimensionRangeManagerT.add_range_unsafe_noint
    (m : DimensionRangeManagerT α) (range : Range α) :
    Status × DimensionRangeManagerT α :=
  if m.ranges_.isEmpty then
    (Status.ok, { m with ranges_ := m.ranges_ ++ [range] })
  else
    match m.add_strategy_ with
    | none => (Status.ok, { m with ranges_ := m.ranges_ ++ [range] })
    | some k =>
      (Status.ok, { m with ranges_ := k.add_range_noint m.ranges_ range })

/-- `DimensionRangeManager::is_default` (`range_manager.h` lines 240-242). -/
def DimensionRangeManagerT.is_default (m : DimensionRangeManagerT α) : Bool :=
  m.is_default_

/-- `DimensionRangeManager::range_num` (`range_manager.h` lines 244-246). -/
def DimensionRangeManagerT.range_num (m : DimensionRangeManagerT α) : Nat :=
  m.ranges_.length

/-- `DimensionRangeManager::get_range` (`range_manager.h` lines 232-234);
out-of-bounds vector indexing is undefined, modelled as `none`. -/
def DimensionRangeManagerT.get_range (m : DimensionRangeManagerT α)
    (range_index : Nat) : Option (Range α) :=
  m.ranges_[range_index]?

/-- `create_range_manager<T, D>` for an integral datatype.  The non-template
dispatcher is `range_manager.cc` lines 168-298; the forwarding template body
it calls is declared in `range_manager.h` but not part of the source subset
and is modelled from the spec (§6: the factory
`(datatype, full_domain_range, allow_multiple_ranges, coalesce_ranges) →
RangeManager`): it forwards to the three-argument constructor, whose
`allow_adding` parameter receives `allow_multiple_ranges`. -/
def create_range_manager_int (d : Datatype) (range_bounds : Range Int)
    (allow_multiple_ranges coalesce_ranges : Bool) :
    DimensionRangeManagerT Int :=
  DimensionRangeManagerT.mk_general_int range_bounds allow_multiple_ranges
    coalesce_ranges d.intMax

/-- `create_default_range_manager<T, D>` (dispatcher at `range_manager.cc`
lines 42-166; the forwarding template body is modelled from the spec as a
call to the default-range constructor). -/
def create_default_range_manager_T (range_bounds : Range α) :
    DimensionRangeManagerT α :=
  DimensionRangeManagerT.mk_default range_bounds

/-- Modelled from the spec: `TimestampedURI` (§3), the
`(uri, timestamp_start, timestamp_end)` triple parsed from an object path
whose name encodes `(timestamp_start, timestamp_end, uuid)` (§6, Persisted
layout assumptions).  The class itself is not part of the source subset;
URI-string parsing is abstracted by taking the parsed fields as input. -/
structure TimestampedURI where
  uri : String
  timestamp_start : Nat
  timestamp_end : Nat
  uuid : String
deriving DecidableEq, Repr

/-- Whether a URI's timestamp window intersects the query window
`[timestamp_start, timestamp_end]` (both inclusive, per the
`get_sorted_uris` doc comment in `storage_manager.h` lines 1188-1196). -/
def uriInWindow (u : TimestampedURI) (timestamp_start timestamp_end : Nat) :
    Prop :=
  u.timestamp_start ≤ timestamp_end ∧ timestamp_start ≤ u.timestamp_end

instance (u : TimestampedURI) (a b : Nat) : Decidable (uriInWindow u a b) := by
  unfold uriInWindow; infer_instance

/-- The ascending order computed by `get_sorted_uris`: first timestamp, ties
broken by lexicographic comparison of the UUID. -/
def uriLe (u v : TimestampedURI) : Prop :=
  u.timestamp_start < v.timestamp_start ∨
    (u.timestamp_start = v.timestamp_start ∧
      (u.uuid < v.uuid ∨ u.uuid = v.uuid))

instance (u v : TimestampedURI) : Decidable (uriLe u v) := by
  unfold uriLe; infer_instance

/-- Strict version of `uriLe` on the `(timestamp_start, uuid)` key. -/
def uriKeyLt (u v : TimestampedURI) : Prop :=
  u.timestamp_start < v.timestamp_start ∨
    (u.timestamp_start = v.timestamp_start ∧ u.uuid < v.uuid)

instance (u v : TimestampedURI) : Decidable (uriKeyLt u v) := by
  unfold uriKeyLt; infer_instance

/-- Modelled from the spec: `StorageManager::get_sorted_uris` (declared at
`storage_manager.h` lines 1188-1201; the implementation is not part of the
source subset).  Per its doc comment and §4.5 of the spec, it keeps exactly
the URIs whose timestamp window intersects
`[timestamp_start, timestamp_end]` (inclusive) and returns them in
ascending first-timestamp order, breaking ties by lexicographic sorting of
the UUID. -/
def get_sorted_uris (uris : List TimestampedURI)
    (timestamp_start timestamp_end : Nat) : List TimestampedURI :=
  List.insertionSort uriLe
    (uris.filter (fun u => decide (uriInWindow u timestamp_start timestamp_end)))

/-- Iterated `RangeSubset::add_range_unsafe` for the float/string
instantiation: the sequence of calls a caller makes after construction;
`none` as soon as one call dereferences a null `impl_`. -/
def subset_applyAdds : RangeSubsetT α → List (Range α) → Option (RangeSubsetT α)
  | s, [] => some s
  | s, r :: rs =>
    match s.add_range_unsafe_noint r with
    | none => none
    | some p => subset_applyAdds p.2 rs

/-- Iterated `DimensionRangeManager::add_range_unsafe` for the float/string
instantiation. -/
def manager_applyAdds :
    DimensionRangeManagerT α → List (Range α) → DimensionRangeManagerT α
  | m, [] => m
  | m, r :: rs => manager_applyAdds (m.add_range_unsafe_noint r).2 rs

/-- Pure recursion describing the `(is_default_, ranges_)` evolution of a
float/string subset under iterated adds.  It does not mention the
`coalesce_ranges` flag, which is how the flag's inertness over whole call
sequences is proved. -/
def addsModel : Bool → List (Range α) → List (Range α) → Bool × List (Range α)
  | isdef, ranges, [] => (isdef, ranges)
  | isdef, ranges, r :: rs =>
    addsModel false ((if isdef then [] else ranges) ++ [r]) rs

/-- `create_range_manager<T, D>` for a float or string datatype (dispatcher
at `range_manager.cc` lines 168-298; the forwarding template body is
modelled from the spec exactly as in `create_range_manager_int` — the
datatype only selects the payload type `α` here). -/
def create_range_manager_noint (range_bounds : Range α)
    (allow_multiple_ranges coalesce_ranges : Bool) :
    DimensionRangeManagerT α :=
  DimensionRangeManagerT.mk_general_noint range_bounds allow_multiple_ranges
    coalesce_ranges

/-- C7: for every bounds range, a freshly constructed default `RangeSubset`
(general constructor with `is_default = true`) or default
`DimensionRangeManager` has `num_ranges() == 1`, `is_default() == true`, and
its single stored range equals the bounds; in particular over bounds
`[0, 10]`. -/
theorem C7_default_construction :
    (∀ (α : Type) (d : Datatype) (coalesce : Bool) (bounds : Range α),
      (RangeSubsetT.general d bounds true coalesce).num_ranges = 1 ∧
      (RangeSubsetT.general d bounds true coalesce).is_default = true ∧
      (RangeSubsetT.general d bounds true coalesce).get_range 0 = some bounds) ∧
    (∀ (α : Type) (bounds : Range α),
      (DimensionRangeManagerT.mk_default bounds).range_num = 1 ∧
      (DimensionRangeManagerT.mk_default bounds).is_default = true ∧
      (DimensionRangeManagerT.mk_default bounds).get_range 0 = some bounds) ∧
    (RangeSubsetT.general Datatype.UINT64 (⟨0, 10⟩ : Range Int) true true).get_range 0 =
      some ⟨0, 10⟩ ∧
    (DimensionRangeManagerT.mk_default (⟨0, 10⟩ : Range Int)).get_range 0 =
      some ⟨0, 10⟩ := by
  refine ⟨fun α d coalesce bounds => ⟨?_, rfl, ?_⟩,
    fun α bounds => ⟨rfl, rfl, rfl⟩, rfl, rfl⟩ <;>
    simp [RangeSubsetT.general, RangeSubsetT.num_ranges, RangeSubsetT.get_range]

/-- C2 (evaluation): `RangeSubset::add_range_unsafe` always leaves
`is_default() == false` and, on a default subset, discards the implicit
default range (the stored sequence becomes exactly the added range); but
`DimensionRangeManager::add_range_unsafe` on a default-constructed manager
over bounds `[0, 10]` appends after the implicit default range, leaving
`is_default() == true` and the sequence `[[0,10], [1,2]]`, contradicting the
claim for `DimensionRangeManager`. -/
theorem C2_default_discard_bug :
    (∀ (d : Datatype) (full : Range Int) (is_default coalesce : Bool)
        (r : Range Int),
      ((RangeSubsetT.general d full is_default coalesce).add_range_unsafe_int
          r).map (fun p => p.2.is_default) = some false) ∧
    (∀ (α : Type) (d : Datatype) (full : Range α) (is_default coalesce : Bool)
        (r : Range α),
      ((RangeSubsetT.general d full is_default coalesce).add_range_unsafe_noint
          r).map (fun p => p.2.is_default) = some false) ∧
    (∀ (d : Datatype) (full : Range Int) (coalesce : Bool) (r : Range Int),
      ((RangeSubsetT.general d full true coalesce).add_range_unsafe_int
          r).map (fun p => p.2.ranges_) = some [r]) ∧
    ((DimensionRangeManagerT.mk_default
        (⟨0, 10⟩ : Range Int)).add_range_unsafe_int ⟨1, 2⟩).2.is_default =
      true ∧
    ((DimensionRangeManagerT.mk_default
        (⟨0, 10⟩ : Range Int)).add_range_unsafe_int ⟨1, 2⟩).2.ranges_ =
      [⟨0, 10⟩, ⟨1, 2⟩] := by
  refine ⟨?_, ?_, ?_, by decide, by decide⟩
  · intro d full is_default coalesce r
    cases is_default <;>
      simp [RangeSubsetT.general, RangeSubsetT.add_range_unsafe_int,
        RangeSubsetT.is_default]
  · intro α d full is_default coalesce r
    cases is_default <;>
      simp [RangeSubsetT.general, RangeSubsetT.add_range_unsafe_noint,
        RangeSubsetT.is_default]
  · intro d full coalesce r
    simp [RangeSubsetT.general, RangeSubsetT.add_range_unsafe_int,
      AddStrategy.add_range_int, coalescing_add_range, basic_add_range,
      addStrategyCoalesces]

/-- C4 (evaluation): a `DimensionRangeManager` built by `create_range_manager`
with `allow_multiple_ranges = false` installs no add strategy, and
`add_range_unsafe` then appends unconditionally (the path the source TODO
calls "an unexpected state"): two adds always leave two stored ranges, so
the sequence is not limited to one range. -/
theorem C4_single_range_bug :
    (∀ (d : Datatype) (bounds r1 r2 : Range Int) (coalesce : Bool),
      (((create_range_manager_int d bounds false
            coalesce).add_range_unsafe_int r1).2.add_range_unsafe_int
          r2).2.range_num = 2) ∧
    (((create_range_manager_int Datatype.UINT64 ⟨0, 10⟩ false
          true).add_range_unsafe_int ⟨1, 2⟩).2.add_range_unsafe_int
        ⟨5, 6⟩).2.ranges_ = [⟨1, 2⟩, ⟨5, 6⟩] := by
  refine ⟨?_, by decide⟩
  intro d bounds r1 r2 coalesce
  simp [create_range_manager_int, DimensionRangeManagerT.mk_general_int,
    DimensionRangeManagerT.add_range_unsafe_int,
    DimensionRangeManagerT.range_num]

/-- Both branches of the resolved integral `AddStrategy` return
`Status::Ok()`. -/
theorem AddStrategy.add_range_int_fst (c : Bool) (t : PhysT) (m : Int)
    (rs : List (Range Int)) (r : Range Int) :
    (AddStrategy.add_range_int c t m rs r).1 = Status.ok := by
  unfold AddStrategy.add_range_int
  split <;> rfl

/-- Both branches of the resolved float/string `AddStrategy` return
`Status::Ok()`. -/
theorem AddStrategy.add_range_noint_fst (c : Bool) (t : PhysT)
    (rs : List (Range α)) (r : Range α) :
    (AddStrategy.add_range_noint c t rs r).1 = Status.ok := by
  unfold AddStrategy.add_range_noint
  split <;> rfl

/-- C9: every execution path of `add_range_unsafe` returns `Status::Ok()`:
on a `RangeSubset` whose internals pointer is non-null (both the integral
and the float/string instantiations), and on every `DimensionRangeManager`,
for every input range. -/
theorem C9_add_range_always_ok :
    (∀ (s : RangeSubsetT Int) (r : Range Int) (st : Status)
        (s' : RangeSubsetT Int),
      s.add_range_unsafe_int r = some (st, s') → st = Status.ok) ∧
    (∀ (α : Type) (s : RangeSubsetT α) (r : Range α) (st : Status)
        (s' : RangeSubsetT α),
      s.add_range_unsafe_noint r = some (st, s') → st = Status.ok) ∧
    (∀ (m : DimensionRangeManagerT Int) (r : Range Int),
      (m.add_range_unsafe_int r).1 = Status.ok) ∧
    (∀ (α : Type) (m : DimensionRangeManagerT α) (r : Range α),
      (m.add_range_unsafe_noint r).1 = Status.ok) := by
  refine ⟨?_, ?_, ?_, ?_⟩
  · intro s r st s' h
    obtain ⟨impl_, full, isdef, rs⟩ := s
    cases impl_ with
    | none => simp [RangeSubsetT.add_range_unsafe_int] at h
    | some impl =>
      simp only [RangeSubsetT.add_range_unsafe_int, Option.some.injEq,
        Prod.mk.injEq] at h
      rw [← h.1, AddStrategy.add_range_int_fst]
  · intro α s r st s' h
    obtain ⟨impl_, full, isdef, rs⟩ := s
    cases impl_ with
    | none => simp [RangeSubsetT.add_range_unsafe_noint] at h
    | some impl =>
      simp only [RangeSubsetT.add_range_unsafe_noint, Option.some.injEq,
        Prod.mk.injEq] at h
      rw [← h.1, AddStrategy.add_range_noint_fst]
  · intro m r
    unfold DimensionRangeManagerT.add_range_unsafe_int
    split
    · rfl
    · split <;> rfl
  · intro α m r
    unfold DimensionRangeManagerT.add_range_unsafe_noint
    split
    · rfl
    · split <;> rfl

/-- C9 witness: the theorem applied to a concrete subset and range. -/
theorem C9_add_range_always_ok_witness :
    ((RangeSubsetT.general Datatype.UINT64 (⟨0, 10⟩ : Range Int) true
        true).add_range_unsafe_int ⟨1, 2⟩ =
      some (Status.ok,
        { impl_ := some ⟨Datatype.UINT64, true⟩
          full_range_ := ⟨0, 10⟩
          is_default_ := false
          ranges_ := [⟨1, 2⟩] })) ∧ Status.ok = Status.ok :=
  have h : (RangeSubsetT.general Datatype.UINT64 (⟨0, 10⟩ : Range Int) true
      true).add_range_unsafe_int ⟨1, 2⟩ =
    some (Status.ok,
      { impl_ := some ⟨Datatype.UINT64, true⟩
        full_range_ := ⟨0, 10⟩
        is_default_ := false
        ranges_ := [⟨1, 2⟩] }) := by decide
  ⟨h, C9_add_range_always_ok.1
    (RangeSubsetT.general Datatype.UINT64 ⟨0, 10⟩ true true) ⟨1, 2⟩ Status.ok
    { impl_ := some ⟨Datatype.UINT64, true⟩
      full_range_ := ⟨0, 10⟩
      is_default_ := false
      ranges_ := [⟨1, 2⟩] } h⟩

/-- C10: a default-constructed `RangeSubset` has a null `impl_`, and
`add_range_unsafe` / `sort_ranges` on any subset with a null `impl_`
dereference that null pointer (modelled as the undefined result `none`);
the general constructor always installs a non-null `impl_`. -/
theorem C10_null_impl :
    (∀ (α : Type) (e : Range α), (RangeSubsetT.default_ctor e).impl_ = none) ∧
    (∀ (s : RangeSubsetT Int) (r : Range Int),
      s.impl_ = none → s.add_range_unsafe_int r = none) ∧
    (∀ (α : Type) (s : RangeSubsetT α) (r : Range α),
      s.impl_ = none → s.add_range_unsafe_noint r = none) ∧
    (∀ s : RangeSubsetT Int, s.impl_ = none → s.sort_ranges_int = none) ∧
    (∀ s : RangeSubsetT String, s.impl_ = none → s.sort_ranges_str = none) ∧
    (∀ s : RangeSubsetT ℚ, s.impl_ = none → s.sort_ranges_float = none) ∧
    (∀ (α : Type) (d : Datatype) (full : Range α) (is_default coalesce : Bool),
      (RangeSubsetT.general d full is_default coalesce).impl_ =
        some ⟨d, coalesce⟩) := by
  refine ⟨fun α e => rfl, ?_, ?_, ?_, ?_, ?_, fun α d full i c => rfl⟩ <;>
    first
      | (intro s r h;
         first
          | simp [RangeSubsetT.add_range_unsafe_int, h]
          | simp [RangeSubsetT.add_range_unsafe_noint, h])
      | (intro s h;
         first
          | simp [RangeSubsetT.sort_ranges_int, h]
          | simp [RangeSubsetT.sort_ranges_str, h]
          | simp [RangeSubsetT.sort_ranges_float, h])
      | (intro α s r h; simp [RangeSubsetT.add_range_unsafe_noint, h])

/-- C10 witness: the theorem applied to a concrete null-`impl_` subset. -/
theorem C10_null_impl_witness :
    ((RangeSubsetT.default_ctor (⟨0, 0⟩ : Range Int)).impl_ = none) ∧
    (RangeSubsetT.default_ctor (⟨0, 0⟩ : Range Int)).add_range_unsafe_int
        ⟨1, 2⟩ = none :=
  ⟨rfl, C10_null_impl.2.1 _ _ rfl⟩

/-- One float/string `RangeSubset::add_range_unsafe` call, computed in
closed form: the default state is cleared and the range appended, for
either value of the `coalesce_ranges` flag. -/
theorem subset_add_noint_eq (d : Datatype) (c : Bool)
    (hni : d.physType.is_integral = false) (full : Range α) (isdef : Bool)
    (ranges : List (Range α)) (r : Range α) :
    RangeSubsetT.add_range_unsafe_noint ⟨some ⟨d, c⟩, full, isdef, ranges⟩ r =
      some (Status.ok,
        ⟨some ⟨d, c⟩, full, false, (if isdef then [] else ranges) ++ [r]⟩) := by
  cases isdef <;>
    simp [RangeSubsetT.add_range_unsafe_noint, AddStrategy.add_range_noint,
      addStrategyCoalesces, hni, basic_add_range]

/-- A float/string subset's whole add sequence evolves by `addsModel`,
keeping its internals (in particular, independently of the flag they
record). -/
theorem subset_applyAdds_noint (d : Datatype) (c : Bool)
    (hni : d.physType.is_integral = false) (full : Range α) :
    ∀ (rs : List (Range α)) (isdef : Bool) (ranges : List (Range α)),
    subset_applyAdds (⟨some ⟨d, c⟩, full, isdef, ranges⟩ : RangeSubsetT α) rs =
      some ⟨some ⟨d, c⟩, full, (addsModel isdef ranges rs).1,
        (addsModel isdef ranges rs).2⟩
  | [], isdef, ranges => rfl
  | r :: rs, isdef, ranges => by
    unfold subset_applyAdds
    rw [subset_add_noint_eq d c hni full isdef ranges r]
    exact subset_applyAdds_noint d c hni full rs false
      ((if isdef then [] else ranges) ++ [r])

/-- On a manager whose installed strategy is not the integral coalescing
one (all float/string managers), every `add_range_unsafe` path appends. -/
theorem manager_add_noint_ranges (m : DimensionRangeManagerT α) (r : Range α)
    (h : ∀ maxT, m.add_strategy_ ≠ some (AddStrategyK.coalescingInt maxT)) :
    m.add_range_unsafe_noint r =
      (Status.ok, { m with ranges_ := m.ranges_ ++ [r] }) := by
  unfold DimensionRangeManagerT.add_range_unsafe_noint
  split
  · rfl
  · cases hstrat : m.add_strategy_ with
    | none => rfl
    | some k =>
      cases k with
      | basic => simp [AddStrategyK.add_range_noint]
      | coalescingInt maxT => exact absurd hstrat (h maxT)
      | coalescingAppend => simp [AddStrategyK.add_range_noint]

/-- A float/string manager's whole add sequence appends the added ranges in
order, leaving every other field unchanged. -/
theorem manager_applyAdds_eq :
    ∀ (rs : List (Range α)) (m : DimensionRangeManagerT α),
    (∀ maxT, m.add_strategy_ ≠ some (AddStrategyK.coalescingInt maxT)) →
    manager_applyAdds m rs = { m with ranges_ := m.ranges_ ++ rs }
  | [], m, _ => by simp [manager_applyAdds]
  | r :: rs, m, h => by
    unfold manager_applyAdds
    rw [manager_add_noint_ranges m r h]
    rw [manager_applyAdds_eq rs { m with ranges_ := m.ranges_ ++ [r] } h]
    simp

/-- The spec's words for the float/string add behavior (§4.2 / §8 of the
spec): "coalescing is never applied regardless of the `coalesce_ranges`
flag" — every added range is appended unconditionally.  Used as the
reference side of the refinement claim C5. -/
def spec_add_never_coalesces (ranges : List (Range α)) (new_range : Range α) :
    List (Range α) :=
  ranges ++ [new_range]

/-- C5: for float and string element types the `coalesce_ranges` flag is
inert — template resolution never selects the integral coalescing strategy,
`RangeSubset::add_range_unsafe` behaves identically for subsets built with
`coalesce_ranges = true` and `false` (always appending, per
`spec_add_never_coalesces`), the two manager strategies
(`CoalescingAddStrategy` float/string specialization and
`BasicAddStrategy`) coincide, adding `[-0.5, 0.5]` then `[0.5, 0.75]` to a
coalescing float subset yields two stored ranges, and — over arbitrary add
sequences from construction — a subset built by the general constructor
with `coalesce_ranges = true` and a manager built by `create_range_manager`
with `coalesce_ranges = true` produce exactly the observable states of
their `coalesce_ranges = false` counterparts. -/
theorem C5_no_float_string_coalescing :
    (∀ c : Bool, addStrategyCoalesces c PhysT.f32 = false ∧
      addStrategyCoalesces c PhysT.f64 = false ∧
      addStrategyCoalesces c PhysT.str = false) ∧
    (∀ (α : Type) (d : Datatype) (full : Range α) (isdef : Bool)
        (ranges : List (Range α)) (r : Range α),
      d.physType.is_integral = false →
      (RangeSubsetT.add_range_unsafe_noint ⟨some ⟨d, true⟩, full, isdef, ranges⟩ r).map
          (fun p => (p.1, p.2.is_default_, p.2.ranges_)) =
        (RangeSubsetT.add_range_unsafe_noint ⟨some ⟨d, false⟩, full, isdef, ranges⟩ r).map
          (fun p => (p.1, p.2.is_default_, p.2.ranges_)) ∧
      (RangeSubsetT.add_range_unsafe_noint ⟨some ⟨d, true⟩, full, isdef, ranges⟩ r).map
          (fun p => p.2.ranges_) =
        some (spec_add_never_coalesces (if isdef then [] else ranges) r)) ∧
    (∀ (α : Type) (bounds : Range α) (isdef : Bool)
        (ranges : List (Range α)) (r : Range α),
      (DimensionRangeManagerT.add_range_unsafe_noint
          ⟨bounds, isdef, some .coalescingAppend, ranges⟩ r).2.ranges_ =
        (DimensionRangeManagerT.add_range_unsafe_noint
          ⟨bounds, isdef, some .basic, ranges⟩ r).2.ranges_ ∧
      (DimensionRangeManagerT.add_range_unsafe_noint
          ⟨bounds, isdef, some .coalescingAppend, ranges⟩ r).2.ranges_ =
        spec_add_never_coalesces ranges r) ∧
    (((RangeSubsetT.general Datatype.FLOAT32 (⟨-1, 1⟩ : Range ℚ) false
            true).add_range_unsafe_noint ⟨-1/2, 1/2⟩).bind
        (fun p => p.2.add_range_unsafe_noint ⟨1/2, 3/4⟩)).map
        (fun p => p.2.num_ranges) = some 2 ∧
    (((RangeSubsetT.general Datatype.STRING_ASCII (⟨"a", "zz"⟩ : Range String)
            false true).add_range_unsafe_noint ⟨"a", "c"⟩).bind
        (fun p => p.2.add_range_unsafe_noint ⟨"c", "d"⟩)).map
        (fun p => p.2.num_ranges) = some 2 ∧
    (∀ (α : Type) (d : Datatype) (full : Range α) (isdef : Bool)
        (rs : List (Range α)),
      d.physType.is_integral = false →
      (subset_applyAdds (RangeSubsetT.general d full isdef true) rs).map
          (fun s => (s.is_default_, s.ranges_)) =
        (subset_applyAdds (RangeSubsetT.general d full isdef false) rs).map
          (fun s => (s.is_default_, s.ranges_))) ∧
    (∀ (α : Type) (bounds : Range α) (allow_multiple_ranges : Bool)
        (rs : List (Range α)),
      (manager_applyAdds
          (create_range_manager_noint bounds allow_multiple_ranges true)
          rs).ranges_ =
        (manager_applyAdds
          (create_range_manager_noint bounds allow_multiple_ranges false)
          rs).ranges_) := by
  refine ⟨fun c => by cases c <;> exact ⟨rfl, rfl, rfl⟩, ?_, ?_, ?_, ?_, ?_, ?_⟩
  · intro α d full isdef ranges r hni
    constructor
    · cases isdef <;>
        simp [RangeSubsetT.add_range_unsafe_noint, AddStrategy.add_range_noint,
          addStrategyCoalesces, hni]
    · cases isdef <;>
        simp [RangeSubsetT.add_range_unsafe_noint, AddStrategy.add_range_noint,
          addStrategyCoalesces, hni, spec_add_never_coalesces,
          basic_add_range]
  · intro α bounds isdef ranges r
    constructor <;>
      cases hr : ranges <;>
        simp [DimensionRangeManagerT.add_range_unsafe_noint,
          AddStrategyK.add_range_noint, spec_add_never_coalesces]
  · simp [RangeSubsetT.general, RangeSubsetT.add_range_unsafe_noint,
      AddStrategy.add_range_noint, addStrategyCoalesces, Datatype.physType,
      PhysT.is_integral, basic_add_range, RangeSubsetT.num_ranges]
  · simp [RangeSubsetT.general, RangeSubsetT.add_range_unsafe_noint,
      AddStrategy.add_range_noint, addStrategyCoalesces, Datatype.physType,
      PhysT.is_integral, basic_add_range, RangeSubsetT.num_ranges]
  · intro α d full isdef rs hni
    have hg : ∀ c : Bool, RangeSubsetT.general d full isdef c =
        (⟨some ⟨d, c⟩, full, isdef, if isdef then [full] else []⟩ :
          RangeSubsetT α) := fun c => rfl
    rw [hg true, hg false,
      subset_applyAdds_noint d true hni full rs isdef _,
      subset_applyAdds_noint d false hni full rs isdef _]
    rfl
  · intro α bounds allow_multiple_ranges rs
    have h : ∀ (c : Bool) (maxT : Int),
        (create_range_manager_noint bounds allow_multiple_ranges c :
          DimensionRangeManagerT α).add_strategy_ ≠
          some (AddStrategyK.coalescingInt maxT) := by
      intro c maxT
      cases allow_multiple_ranges <;> cases c <;>
        simp [create_range_manager_noint,
          DimensionRangeManagerT.mk_general_noint]
    rw [manager_applyAdds_eq rs _ (h true), manager_applyAdds_eq rs _ (h false)]
    rfl

/-- C5 witness: the subset-level equivalence applied to a concrete
`FLOAT64` subset state. -/
theorem C5_no_float_string_coalescing_witness :
    Datatype.FLOAT64.physType.is_integral = false ∧
    (RangeSubsetT.add_range_unsafe_noint
        (⟨some ⟨Datatype.FLOAT64, true⟩, ⟨-1, 1⟩, false, []⟩ : RangeSubsetT ℚ)
        ⟨-1/2, 1/2⟩).map (fun p => (p.1, p.2.is_default_, p.2.ranges_)) =
      (RangeSubsetT.add_range_unsafe_noint
        (⟨some ⟨Datatype.FLOAT64, false⟩, ⟨-1, 1⟩, false, []⟩ : RangeSubsetT ℚ)
        ⟨-1/2, 1/2⟩).map (fun p => (p.1, p.2.is_default_, p.2.ranges_)) :=
  ⟨rfl, (C5_no_float_string_coalescing.2.1 ℚ Datatype.FLOAT64 ⟨-1, 1⟩ false []
    ⟨-1/2, 1/2⟩ rfl).1⟩


/-- On a non-empty vector, the coalescing add either rewrites the last range
in place or appends, depending exactly on `contiguous_after`. -/
theorem coalescing_add_range_eq (maxT : Int) (ranges : List (Range Int))
    (last_range new_range : Range Int)
    (hlast : ranges.getLast? = some last_range) :
    coalescing_add_range maxT ranges new_range =
      if contiguous_after maxT last_range new_range then
        ranges.dropLast ++ [last_range.set_end new_range.end_]
      else ranges ++ [new_range] := by
  unfold coalescing_add_range
  rw [hlast]

/-- The coalescing add never touches the stored prefix before the last
range. -/
theorem coalescing_add_range_take (maxT : Int) (ranges : List (Range Int))
    (last_range new_range : Range Int)
    (hlast : ranges.getLast? = some last_range) :
    (coalescing_add_range maxT ranges new_range).take (ranges.length - 1) =
      ranges.take (ranges.length - 1) := by
  rw [coalescing_add_range_eq maxT ranges last_range new_range hlast]
  split
  · rw [List.take_left' (List.length_dropLast ranges),
      ← List.dropLast_eq_take]
  · rw [List.take_append_of_le_length (Nat.sub_le _ _)]

/-- C1: with coalescing enabled over an integral element type and a
non-empty stored sequence, `add_range_unsafe(new)` merges `new` into the
last stored range `[a, b]` (setting its end to `new.end`) if and only if
`b != numeric_limits<T>::max()` and `b + 1 == new.start` (the
`contiguous_after` condition), and appends otherwise; the stored prefix
before the last range is never touched.  This holds at the strategy level,
through `RangeSubset::add_range_unsafe` (non-default subset whose internals
coalesce over an integral physical type), and through
`DimensionRangeManager::add_range_unsafe` (installed integral coalescing
strategy); adding `[1,3]` then `[4,5]` yields the single range `[1,5]`
while adding `[1,3]` then `[5,6]` yields two ranges. -/
theorem C1_coalescing_adjacent_only :
    (∀ (maxT : Int) (ranges : List (Range Int))
        (last_range new_range : Range Int),
      ranges.getLast? = some last_range →
      coalescing_add_range maxT ranges new_range =
        (if contiguous_after maxT last_range new_range then
          ranges.dropLast ++ [last_range.set_end new_range.end_]
        else ranges ++ [new_range]) ∧
      (coalescing_add_range maxT ranges new_range).take (ranges.length - 1) =
        ranges.take (ranges.length - 1)) ∧
    (∀ (d : Datatype) (s : RangeSubsetT Int) (new_range : Range Int),
      s.impl_ = some ⟨d, true⟩ → d.physType.is_integral = true →
      s.is_default_ = false →
      s.add_range_unsafe_int new_range =
        some (Status.ok,
          { s with ranges_ :=
              coalescing_add_range d.intMax s.ranges_ new_range })) ∧
    (∀ (maxT : Int) (m : DimensionRangeManagerT Int) (new_range : Range Int),
      m.add_strategy_ = some (.coalescingInt maxT) → m.ranges_ ≠ [] →
      m.add_range_unsafe_int new_range =
        (Status.ok,
          { m with ranges_ :=
              coalescing_add_range maxT m.ranges_ new_range })) ∧
    (((RangeSubsetT.general Datatype.UINT64 (⟨0, 10⟩ : Range Int) false
            true).add_range_unsafe_int ⟨1, 3⟩).bind
        (fun p => p.2.add_range_unsafe_int ⟨4, 5⟩)).map
        (fun p => p.2.ranges_) = some [⟨1, 5⟩] ∧
    (((RangeSubsetT.general Datatype.UINT64 (⟨0, 10⟩ : Range Int) false
            true).add_range_unsafe_int ⟨1, 3⟩).bind
        (fun p => p.2.add_range_unsafe_int ⟨5, 6⟩)).map
        (fun p => p.2.ranges_) = some [⟨1, 3⟩, ⟨5, 6⟩] := by
  refine ⟨?_, ?_, ?_, by decide, by decide⟩
  · intro maxT ranges last_range new_range hlast
    exact ⟨coalescing_add_range_eq maxT ranges last_range new_range hlast,
      coalescing_add_range_take maxT ranges last_range new_range hlast⟩
  · intro d s new_range himpl hint hdef
    unfold RangeSubsetT.add_range_unsafe_int
    rw [himpl]
    simp [hdef, AddStrategy.add_range_int, addStrategyCoalesces, hint, himpl]
  · intro maxT m new_range hstr hne
    have hempty : m.ranges_.isEmpty = false := by
      cases hr : m.ranges_ with
      | nil => exact absurd hr hne
      | cons a l => rfl
    unfold DimensionRangeManagerT.add_range_unsafe_int
    simp [hempty, hstr, AddStrategyK.add_range]

/-- C1 witness: the subset-level equation applied to a concrete coalescing
`UINT64` subset holding `[1, 3]`, adding the adjacent `[4, 5]`. -/
theorem C1_coalescing_adjacent_only_witness :
    ((⟨some ⟨Datatype.UINT64, true⟩, ⟨0, 10⟩, false, [⟨1, 3⟩]⟩ :
        RangeSubsetT Int).impl_ = some ⟨Datatype.UINT64, true⟩) ∧
    Datatype.UINT64.physType.is_integral = true ∧
    ((⟨some ⟨Datatype.UINT64, true⟩, ⟨0, 10⟩, false, [⟨1, 3⟩]⟩ :
        RangeSubsetT Int).is_default_ = false) ∧
    (⟨some ⟨Datatype.UINT64, true⟩, ⟨0, 10⟩, false, [⟨1, 3⟩]⟩ :
        RangeSubsetT Int).add_range_unsafe_int ⟨4, 5⟩ =
      some (Status.ok,
        ⟨some ⟨Datatype.UINT64, true⟩, ⟨0, 10⟩, false,
          coalescing_add_range Datatype.UINT64.intMax [⟨1, 3⟩] ⟨4, 5⟩⟩) :=
  ⟨rfl, rfl, rfl,
    C1_coalescing_adjacent_only.2.1 Datatype.UINT64
      ⟨some ⟨Datatype.UINT64, true⟩, ⟨0, 10⟩, false, [⟨1, 3⟩]⟩ ⟨4, 5⟩
      rfl rfl rfl⟩

/-- Lexicographic strict comparison on a pair of linearly ordered keys, the
common shape of the range comparators and of the URI order. -/
def lexLt {α β : Type} [LinearOrder α] [LinearOrder β] (x y : α × β) : Prop :=
  x.1 < y.1 ∨ (x.1 = y.1 ∧ x.2 < y.2)

/-- A lexicographic strict comparison is asymmetric. -/
theorem lexLt_asymm {α β : Type} [LinearOrder α] [LinearOrder β]
    (x y : α × β) : lexLt x y → lexLt y x → False := by
  rintro (h1 | ⟨e1, h1⟩) (h2 | ⟨e2, h2⟩)
  · exact lt_asymm h1 h2
  · rw [e2] at h1
    exact lt_irrefl _ h1
  · rw [e1] at h2
    exact lt_irrefl _ h2
  · exact lt_asymm h1 h2

/-- The negation of a lexicographic strict comparison is the swapped
non-strict lexicographic order. -/
theorem not_lexLt_iff {α β : Type} [LinearOrder α] [LinearOrder β]
    (x y : α × β) :
    ¬ lexLt y x ↔ (x.1 < y.1 ∨ (x.1 = y.1 ∧ x.2 ≤ y.2)) := by
  unfold lexLt
  constructor
  · intro h
    push_neg at h
    obtain ⟨h1, h2⟩ := h
    rcases lt_or_eq_of_le h1 with hlt | heq
    · exact Or.inl hlt
    · exact Or.inr ⟨heq, h2 heq.symm⟩
  · rintro (h | ⟨he, hle⟩) (h' | ⟨he', h2'⟩)
    · exact lt_asymm h h'
    · rw [he'] at h
      exact lt_irrefl _ h
    · rw [he] at h'
      exact lt_irrefl _ h'
    · exact absurd h2' (not_lt_of_le hle)

/-- The induced non-strict lexicographic order is transitive. -/
theorem not_lexLt_trans {α β : Type} [LinearOrder α] [LinearOrder β]
    (x y z : α × β) : ¬ lexLt y x → ¬ lexLt z y → ¬ lexLt z x := by
  intro h1 h2
  rw [not_lexLt_iff] at h1 h2 ⊢
  rcases h1 with ha | ⟨ea, la⟩ <;> rcases h2 with hb | ⟨eb, lb⟩
  · exact Or.inl (lt_trans ha hb)
  · exact Or.inl (eb ▸ ha)
  · exact Or.inl (by rw [ea]; exact hb)
  · exact Or.inr ⟨ea.trans eb, le_trans la lb⟩

/-- The induced non-strict lexicographic order is total. -/
theorem not_lexLt_total {α β : Type} [LinearOrder α] [LinearOrder β]
    (x y : α × β) : ¬ lexLt x y ∨ ¬ lexLt y x := by
  by_cases h : lexLt x y
  · exact Or.inr fun h' => lexLt_asymm x y h h'
  · exact Or.inl h

instance : IsTotal (Range Int) (fun a b => ¬ range_lt_int b a) :=
  ⟨fun a b => not_lexLt_total ⟨b.start, b.end_⟩ ⟨a.start, a.end_⟩⟩

instance : IsTrans (Range Int) (fun a b => ¬ range_lt_int b a) :=
  ⟨fun a b c => not_lexLt_trans ⟨a.start, a.end_⟩ ⟨b.start, b.end_⟩
    ⟨c.start, c.end_⟩⟩

instance : IsTotal (Range String) (fun a b => ¬ range_lt_str b a) :=
  ⟨fun a b => not_lexLt_total ⟨b.start, b.end_⟩ ⟨a.start, a.end_⟩⟩

instance : IsTrans (Range String) (fun a b => ¬ range_lt_str b a) :=
  ⟨fun a b c => not_lexLt_trans ⟨a.start, a.end_⟩ ⟨b.start, b.end_⟩
    ⟨c.start, c.end_⟩⟩

instance : IsTotal (Range ℚ) (fun a b => ¬ range_lt_float b a) :=
  ⟨fun a b => not_lexLt_total ⟨b.start, b.end_⟩ ⟨a.start, a.end_⟩⟩

instance : IsTrans (Range ℚ) (fun a b => ¬ range_lt_float b a) :=
  ⟨fun a b c => not_lexLt_trans ⟨a.start, a.end_⟩ ⟨b.start, b.end_⟩
    ⟨c.start, c.end_⟩⟩

/-- C6: on a sortable subset, `sort_ranges` returns `Status::Ok()` and
replaces the stored sequence by a permutation of itself that is ascending
in lexicographic `(start, end)` order — decoded numeric comparison for the
arithmetic instantiations (both the integer-decoded and the float-decoded
worlds), byte-lexicographic comparison of `(start_str, end_str)` for
`STRING_ASCII`; concretely, numeric `{[4,5],[1,2]}` becomes `{[1,2],[4,5]}`
and string `{("cat","dog"),("ax","bird")}` becomes
`{("ax","bird"),("cat","dog")}`. -/
theorem C6_sort_orders_ranges :
    (∀ (s : RangeSubsetT Int) (impl : RangeSubsetInternals),
      s.impl_ = some impl → sortEnabled impl.datatype = true →
      ∃ s', s.sort_ranges_int = some (Status.ok, s') ∧
        s'.ranges_.Perm s.ranges_ ∧
        s'.ranges_.Pairwise (fun a b => a.start < b.start ∨
          (a.start = b.start ∧ a.end_ ≤ b.end_))) ∧
    (∀ (s : RangeSubsetT String) (impl : RangeSubsetInternals),
      s.impl_ = some impl → sortEnabled impl.datatype = true →
      ∃ s', s.sort_ranges_str = some (Status.ok, s') ∧
        s'.ranges_.Perm s.ranges_ ∧
        s'.ranges_.Pairwise (fun a b => a.start < b.start ∨
          (a.start = b.start ∧ a.end_ ≤ b.end_))) ∧
    (∀ (s : RangeSubsetT ℚ) (impl : RangeSubsetInternals),
      s.impl_ = some impl → sortEnabled impl.datatype = true →
      ∃ s', s.sort_ranges_float = some (Status.ok, s') ∧
        s'.ranges_.Perm s.ranges_ ∧
        s'.ranges_.Pairwise (fun a b => a.start < b.start ∨
          (a.start = b.start ∧ a.end_ ≤ b.end_))) ∧
    (⟨some ⟨Datatype.UINT64, true⟩, ⟨0, 10⟩, false, [⟨4, 5⟩, ⟨1, 2⟩]⟩ :
        RangeSubsetT Int).sort_ranges_int =
      some (Status.ok,
        ⟨some ⟨Datatype.UINT64, true⟩, ⟨0, 10⟩, false, [⟨1, 2⟩, ⟨4, 5⟩]⟩) ∧
    (⟨some ⟨Datatype.STRING_ASCII, false⟩, ⟨"a", "zz"⟩, false,
        [⟨"cat", "dog"⟩, ⟨"ax", "bird"⟩]⟩ : RangeSubsetT String).sort_ranges_str =
      some (Status.ok,
        ⟨some ⟨Datatype.STRING_ASCII, false⟩, ⟨"a", "zz"⟩, false,
          [⟨"ax", "bird"⟩, ⟨"cat", "dog"⟩]⟩) := by
  refine ⟨?_, ?_, ?_, by decide, ?_⟩
  · intro s impl himpl hsort
    refine ⟨{ s with ranges_ := parallel_sort range_lt_int s.ranges_ }, ?_, ?_, ?_⟩
    · unfold RangeSubsetT.sort_ranges_int
      rw [himpl]
      simp [hsort]
    · exact List.perm_insertionSort _ _
    · exact (List.sorted_insertionSort (fun a b => ¬ range_lt_int b a)
        s.ranges_).imp fun h =>
          (not_lexLt_iff ⟨_, _⟩ ⟨_, _⟩).mp h
  · intro s impl himpl hsort
    refine ⟨{ s with ranges_ := parallel_sort range_lt_str s.ranges_ }, ?_, ?_, ?_⟩
    · unfold RangeSubsetT.sort_ranges_str
      rw [himpl]
      simp [hsort]
    · exact List.perm_insertionSort _ _
    · exact (List.sorted_insertionSort (fun a b => ¬ range_lt_str b a)
        s.ranges_).imp fun h =>
          (not_lexLt_iff ⟨_, _⟩ ⟨_, _⟩).mp h
  · intro s impl himpl hsort
    refine ⟨{ s with ranges_ := parallel_sort range_lt_float s.ranges_ },
      ?_, ?_, ?_⟩
    · unfold RangeSubsetT.sort_ranges_float
      rw [himpl]
      simp [hsort]
    · exact List.perm_insertionSort _ _
    · exact (List.sorted_insertionSort (fun a b => ¬ range_lt_float b a)
        s.ranges_).imp fun h =>
          (not_lexLt_iff ⟨_, _⟩ ⟨_, _⟩).mp h
  · have hlt : ("ax" : String) < "cat" := by
      simp
      decide
    have hsort : parallel_sort range_lt_str
        [(⟨"cat", "dog"⟩ : Range String), ⟨"ax", "bird"⟩] =
        [⟨"ax", "bird"⟩, ⟨"cat", "dog"⟩] := by
      simp [parallel_sort, List.insertionSort, List.orderedInsert,
        range_lt_str, hlt]
    have hstep : (⟨some ⟨Datatype.STRING_ASCII, false⟩, ⟨"a", "zz"⟩, false,
        [⟨"cat", "dog"⟩, ⟨"ax", "bird"⟩]⟩ : RangeSubsetT String).sort_ranges_str =
        some (Status.ok,
          ⟨some ⟨Datatype.STRING_ASCII, false⟩, ⟨"a", "zz"⟩, false,
            parallel_sort range_lt_str [⟨"cat", "dog"⟩, ⟨"ax", "bird"⟩]⟩) := rfl
    rw [hstep, hsort]

/-- C6 witness: the arithmetic part applied to a concrete unsorted `UINT64`
subset. -/
theorem C6_sort_orders_ranges_witness :
    ((⟨some ⟨Datatype.UINT64, true⟩, ⟨0, 10⟩, false, [⟨4, 5⟩, ⟨1, 2⟩]⟩ :
        RangeSubsetT Int).impl_ = some ⟨Datatype.UINT64, true⟩) ∧
    sortEnabled Datatype.UINT64 = true ∧
    (∃ s', (⟨some ⟨Datatype.UINT64, true⟩, ⟨0, 10⟩, false,
        [⟨4, 5⟩, ⟨1, 2⟩]⟩ : RangeSubsetT Int).sort_ranges_int =
          some (Status.ok, s') ∧
      s'.ranges_.Perm [⟨4, 5⟩, ⟨1, 2⟩] ∧
      s'.ranges_.Pairwise (fun a b => a.start < b.start ∨
        (a.start = b.start ∧ a.end_ ≤ b.end_))) :=
  ⟨rfl, rfl,
    C6_sort_orders_ranges.1
      ⟨some ⟨Datatype.UINT64, true⟩, ⟨0, 10⟩, false, [⟨4, 5⟩, ⟨1, 2⟩]⟩
      ⟨Datatype.UINT64, true⟩ rfl rfl⟩

/-- C3 (counterexample): contrary to the claim that UTF8 string dimensions
are sortable, `sort_ranges` on a `STRING_UTF8` subset hits the error
primary template of `SortStrategy` (only `STRING_ASCII` has a sorting
specialization): it returns a "not sortable" error, not `Status::Ok()`,
leaving the stored ranges unmodified. -/
theorem C3_utf8_not_sortable_counterexample :
    (RangeSubsetT.general Datatype.STRING_UTF8 (⟨"a", "c"⟩ : Range String)
        false true).sort_ranges_str =
      some (Status.error "Invalid datatype for sorting.",
        RangeSubsetT.general Datatype.STRING_UTF8 ⟨"a", "c"⟩ false true) ∧
    ((RangeSubsetT.general Datatype.STRING_UTF8 (⟨"a", "c"⟩ : Range String)
        false true).sort_ranges_str).map Prod.fst ≠ some Status.ok :=
  ⟨rfl, by decide⟩

/-- C3 (amended): `sort_ranges` succeeds exactly when the element type is
arithmetic and not plain `char`, or the datatype is `STRING_ASCII` — all
other string encodings, UTF8 included, and `char` dimensions get an
explicit "not sortable" error status; on that error the stored range
sequence (indeed the whole subset) is left unmodified.  Illustrated on a
`char`-typed subset over bounds `['a', 'c']`. -/
theorem C3_sortable_dispatch :
    (∀ d : Datatype, sortEnabled d = true ↔
      ((d.physType.is_arithmetic = true ∧ d.physType ≠ PhysT.char) ∨
        d = Datatype.STRING_ASCII)) ∧
    (∀ (s : RangeSubsetT Int) (impl : RangeSubsetInternals),
      s.impl_ = some impl →
      s.sort_ranges_int =
        (if sortEnabled impl.datatype then
          some (Status.ok,
            { s with ranges_ := parallel_sort range_lt_int s.ranges_ })
        else some (Status.error "Invalid datatype for sorting.", s))) ∧
    (∀ (s : RangeSubsetT String) (impl : RangeSubsetInternals),
      s.impl_ = some impl →
      s.sort_ranges_str =
        (if sortEnabled impl.datatype then
          some (Status.ok,
            { s with ranges_ := parallel_sort range_lt_str s.ranges_ })
        else some (Status.error "Invalid datatype for sorting.", s))) ∧
    (∀ (s : RangeSubsetT ℚ) (impl : RangeSubsetInternals),
      s.impl_ = some impl →
      s.sort_ranges_float =
        (if sortEnabled impl.datatype then
          some (Status.ok,
            { s with ranges_ := parallel_sort range_lt_float s.ranges_ })
        else some (Status.error "Invalid datatype for sorting.", s))) ∧
    (⟨some ⟨Datatype.CHAR, true⟩, ⟨97, 99⟩, true, [⟨97, 99⟩]⟩ :
        RangeSubsetT Int).sort_ranges_int =
      some (Status.error "Invalid datatype for sorting.",
        ⟨some ⟨Datatype.CHAR, true⟩, ⟨97, 99⟩, true, [⟨97, 99⟩]⟩) := by
  refine ⟨?_, ?_, ?_, ?_, rfl⟩
  · intro d
    cases d <;> decide
  · intro s impl himpl
    unfold RangeSubsetT.sort_ranges_int
    rw [himpl]
  · intro s impl himpl
    unfold RangeSubsetT.sort_ranges_str
    rw [himpl]
  · intro s impl himpl
    unfold RangeSubsetT.sort_ranges_float
    rw [himpl]

/-- C3 witness: the integer-world characterization applied to the concrete
`char`-typed subset, whose datatype is not sortable. -/
theorem C3_sortable_dispatch_witness :
    ((⟨some ⟨Datatype.CHAR, true⟩, ⟨97, 99⟩, true, [⟨97, 99⟩]⟩ :
        RangeSubsetT Int).impl_ = some ⟨Datatype.CHAR, true⟩) ∧
    (⟨some ⟨Datatype.CHAR, true⟩, ⟨97, 99⟩, true, [⟨97, 99⟩]⟩ :
        RangeSubsetT Int).sort_ranges_int =
      (if sortEnabled (⟨Datatype.CHAR, true⟩ : RangeSubsetInternals).datatype then
        some (Status.ok,
          { (⟨some ⟨Datatype.CHAR, true⟩, ⟨97, 99⟩, true, [⟨97, 99⟩]⟩ :
              RangeSubsetT Int) with
            ranges_ := parallel_sort range_lt_int [⟨97, 99⟩] })
      else some (Status.error "Invalid datatype for sorting.",
        ⟨some ⟨Datatype.CHAR, true⟩, ⟨97, 99⟩, true, [⟨97, 99⟩]⟩)) :=
  ⟨rfl, C3_sortable_dispatch.2.1
    ⟨some ⟨Datatype.CHAR, true⟩, ⟨97, 99⟩, true, [⟨97, 99⟩]⟩
    ⟨Datatype.CHAR, true⟩ rfl⟩

/-- The URI order is the swapped negation of the strict lexicographic
comparison on the `(timestamp_start, uuid)` key. -/
theorem uriLe_iff (u v : TimestampedURI) :
    uriLe u v ↔
      ¬ lexLt (v.timestamp_start, v.uuid) (u.timestamp_start, u.uuid) := by
  rw [not_lexLt_iff]
  unfold uriLe
  constructor
  · rintro (h | ⟨he, hlt | heq⟩)
    · exact Or.inl h
    · exact Or.inr ⟨he, le_of_lt hlt⟩
    · exact Or.inr ⟨he, le_of_eq heq⟩
  · rintro (h | ⟨he, hle⟩)
    · exact Or.inl h
    · exact Or.inr ⟨he, lt_or_eq_of_le hle⟩

instance : IsTotal TimestampedURI uriLe :=
  ⟨fun u v => by
    rcases not_lexLt_total (u.timestamp_start, u.uuid)
        (v.timestamp_start, v.uuid) with h | h
    · exact Or.inr ((uriLe_iff v u).mpr h)
    · exact Or.inl ((uriLe_iff u v).mpr h)⟩

instance : IsTrans TimestampedURI uriLe :=
  ⟨fun u v w huv hvw => by
    rw [uriLe_iff] at huv hvw ⊢
    exact not_lexLt_trans _ _ _ huv hvw⟩

instance : IsAntisymm TimestampedURI (fun u v => uriKeyLt u v ∨ u = v) :=
  ⟨fun u v huv hvu => by
    rcases huv with h1 | h1
    · rcases hvu with h2 | h2
      · exact (lexLt_asymm ((u.timestamp_start, u.uuid) : Nat × String)
          (v.timestamp_start, v.uuid) h1 h2).elim
      · exact h2.symm
    · exact h1⟩

/-- C8: `get_sorted_uris` returns exactly the input URIs whose timestamp
window intersects `[timestamp_start, timestamp_end]`, in ascending order of
`(first timestamp, lexicographic UUID tie-break)`; and for inputs on which
the `(timestamp_start, uuid)` key is identifying (as it is for real
fragment listings), the output is the same for any listing order of the
same URI set. -/
theorem C8_get_sorted_uris_deterministic :
    (∀ (uris : List TimestampedURI) (timestamp_start timestamp_end : Nat)
        (u : TimestampedURI),
      u ∈ get_sorted_uris uris timestamp_start timestamp_end ↔
        (u ∈ uris ∧ uriInWindow u timestamp_start timestamp_end)) ∧
    (∀ (uris : List TimestampedURI) (timestamp_start timestamp_end : Nat),
      (get_sorted_uris uris timestamp_start timestamp_end).Sorted uriLe) ∧
    (∀ (l1 l2 : List TimestampedURI) (timestamp_start timestamp_end : Nat),
      l1.Perm l2 →
      l1.Pairwise (fun u v =>
        u.timestamp_start = v.timestamp_start → u.uuid = v.uuid → u = v) →
      get_sorted_uris l1 timestamp_start timestamp_end =
        get_sorted_uris l2 timestamp_start timestamp_end) := by
  refine ⟨?_, ?_, ?_⟩
  · intro uris ts1 ts2 u
    unfold get_sorted_uris
    rw [(List.perm_insertionSort uriLe _).mem_iff]
    simp only [List.mem_filter, decide_eq_true_eq]
  · intro uris ts1 ts2
    exact List.sorted_insertionSort uriLe _
  · intro l1 l2 ts1 ts2 hperm hpair
    have hRsymm : Symmetric (fun u v : TimestampedURI =>
        u.timestamp_start = v.timestamp_start → u.uuid = v.uuid → u = v) :=
      fun u v h e1 e2 => (h e1.symm e2.symm).symm
    have hf : (l1.filter
          (fun u => decide (uriInWindow u ts1 ts2))).Perm
        (l2.filter (fun u => decide (uriInWindow u ts1 ts2))) :=
      hperm.filter _
    have ho1 := List.perm_insertionSort uriLe
      (l1.filter (fun u => decide (uriInWindow u ts1 ts2)))
    have ho2 := List.perm_insertionSort uriLe
      (l2.filter (fun u => decide (uriInWindow u ts1 ts2)))
    have hs1 := List.sorted_insertionSort uriLe
      (l1.filter (fun u => decide (uriInWindow u ts1 ts2)))
    have hs2 := List.sorted_insertionSort uriLe
      (l2.filter (fun u => decide (uriInWindow u ts1 ts2)))
    have hR2 : l2.Pairwise (fun u v =>
        u.timestamp_start = v.timestamp_start → u.uuid = v.uuid → u = v) :=
      (hperm.pairwise_iff (fun hab => hRsymm hab)).mp hpair
    have hRo1 := ((ho1.pairwise_iff (fun hab => hRsymm hab)).mpr
      (hpair.filter _))
    have hRo2 := ((ho2.pairwise_iff (fun hab => hRsymm hab)).mpr
      (hR2.filter _))
    have hconv : ∀ {a b : TimestampedURI},
        uriLe a b ∧ (a.timestamp_start = b.timestamp_start →
          a.uuid = b.uuid → a = b) →
        (uriKeyLt a b ∨ a = b) := by
      rintro a b ⟨hle, hkey⟩
      rcases hle with hts | ⟨hts, hu | hu⟩
      · exact Or.inl (Or.inl hts)
      · exact Or.inl (Or.inr ⟨hts, hu⟩)
      · exact Or.inr (hkey hts hu)
    have hko1 : (List.insertionSort uriLe
        (l1.filter (fun u => decide (uriInWindow u ts1 ts2)))).Pairwise
          (fun u v => uriKeyLt u v ∨ u = v) :=
      (hs1.and hRo1).imp hconv
    have hko2 : (List.insertionSort uriLe
        (l2.filter (fun u => decide (uriInWindow u ts1 ts2)))).Pairwise
          (fun u v => uriKeyLt u v ∨ u = v) :=
      (hs2.and hRo2).imp hconv
    unfold get_sorted_uris
    exact List.eq_of_perm_of_sorted (ho1.trans (hf.trans ho2.symm)) hko1 hko2

/-- C8 witness: two fragments sharing `timestamp_start = 5` but with
distinct UUIDs, listed in the two possible orders, yield the same sorted
output. -/
theorem C8_get_sorted_uris_deterministic_witness :
    ([⟨"urlB", 5, 12, "bbb"⟩, ⟨"urlA", 5, 9, "aaa"⟩] :
        List TimestampedURI).Perm
      [⟨"urlA", 5, 9, "aaa"⟩, ⟨"urlB", 5, 12, "bbb"⟩] ∧
    ([⟨"urlB", 5, 12, "bbb"⟩, ⟨"urlA", 5, 9, "aaa"⟩] :
        List TimestampedURI).Pairwise (fun u v =>
      u.timestamp_start = v.timestamp_start → u.uuid = v.uuid → u = v) ∧
    get_sorted_uris [⟨"urlB", 5, 12, "bbb"⟩, ⟨"urlA", 5, 9, "aaa"⟩] 0 20 =
      get_sorted_uris [⟨"urlA", 5, 9, "aaa"⟩, ⟨"urlB", 5, 12, "bbb"⟩] 0 20 :=
  have hperm : ([⟨"urlB", 5, 12, "bbb"⟩, ⟨"urlA", 5, 9, "aaa"⟩] :
      List TimestampedURI).Perm
    [⟨"urlA", 5, 9, "aaa"⟩, ⟨"urlB", 5, 12, "bbb"⟩] :=
    List.Perm.swap (⟨"urlA", 5, 9, "aaa"⟩ : TimestampedURI)
      (⟨"urlB", 5, 12, "bbb"⟩ : TimestampedURI) []
  have hpair : ([⟨"urlB", 5, 12, "bbb"⟩, ⟨"urlA", 5, 9, "aaa"⟩] :
      List TimestampedURI).Pairwise (fun u v =>
    u.timestamp_start = v.timestamp_start → u.uuid = v.uuid → u = v) := by
    refine List.Pairwise.cons ?_ (List.Pairwise.cons ?_ List.Pairwise.nil)
    · intro v hv
      rw [List.mem_singleton] at hv
      subst hv
      intro e1 e2
      exact absurd e2 (by simp)
    · intro v hv
      simp at hv
  ⟨hperm, hpair,
    C8_get_sorted_uris_deterministic.2.2
      [⟨"urlB", 5, 12, "bbb"⟩, ⟨"urlA", 5, 9, "aaa"⟩]
      [⟨"urlA", 5, 9, "aaa"⟩, ⟨"urlB", 5, 12, "bbb"⟩] 0 20 hperm hpair⟩
